import Mathlib

/-!
# Verification of the osint-project telemetry pipeline

Shallow embedding of the two source files of the repository:

* `networkws.py` — `ConnectionTracker` (connection-identity tracking,
  history/duration state, retention filter, eviction) and the collector
  WebSocket server.
* `service.py` — `NetworkAnalyzer` (feature scoring and batch
  normalization) and `WebSocketServer` (subscriber hub and broadcast).

Machine-level conventions of the embedding:

* Python `dict`s become association lists over `String` keys
  (`lookupA`, `setKey`, keyed filters); Python `set`s of ids become lists
  queried through membership.
* Python `float` arithmetic is modelled exactly over `ℚ`.
* Python strings that are only appended to character by character
  (`history`, `conn.status`) are modelled as `List Char`; other strings
  stay `String`.
* Nondeterministic external inputs (`psutil` sample, process-name lookup,
  clock) are parameters of the functions that consume them; the
  per-record `ts`/`uid` fields (wall-clock and `uuid4`) are omitted from
  the record model because no claim mentions them.
-/

namespace Osint

/-! ## Association-list dictionaries (Python `dict`) -/

/-- Lookup in an association list, first binding wins (Python `d[k]` / `k in d`). -/
def lookupA {α : Type} (m : List (String × α)) (k : String) : Option α :=
  match m with
  | [] => none
  | p :: rest => if p.1 = k then some p.2 else lookupA rest k

/-- Remove every binding of key `k`. -/
def eraseKey {α : Type} (m : List (String × α)) (k : String) : List (String × α) :=
  m.filter (fun p => decide (p.1 ≠ k))

/-- Python `d[k] = v`: bind `k` to `v` (position in the list is irrelevant,
maps are only observed through `lookupA`). -/
def setKey {α : Type} (m : List (String × α)) (k : String) (v : α) : List (String × α) :=
  (k, v) :: eraseKey m k

theorem lookupA_filter_key {α : Type} (g : String → Bool) (m : List (String × α)) (k : String) :
    lookupA (m.filter (fun p => g p.1)) k = if g k then lookupA m k else none := by
  induction m with
  | nil => simp [lookupA]
  | cons p rest ih =>
    by_cases hk : p.1 = k
    · subst hk
      by_cases hg : g p.1 <;> simp [lookupA, hg, List.filter, ih]
    · by_cases hg : g p.1 <;> simp [lookupA, hg, hk, List.filter, ih]

theorem lookupA_setKey_self {α : Type} (m : List (String × α)) (k : String) (v : α) :
    lookupA (setKey m k v) k = some v := by
  simp [setKey, lookupA]

theorem lookupA_setKey_ne {α : Type} (m : List (String × α)) (k k' : String) (v : α)
    (h : k' ≠ k) : lookupA (setKey m k v) k' = lookupA m k' := by
  have hg := lookupA_filter_key (fun s => decide (s ≠ k)) m k'
  simp [setKey, lookupA, eraseKey, Ne.symm h]
  simpa [h] using hg

theorem mem_setKey {α : Type} {m : List (String × α)} {k : String} {v : α} {p : String × α}
    (h : p ∈ setKey m k v) : p = (k, v) ∨ p ∈ m := by
  rcases List.mem_cons.mp h with h1 | h2
  · exact Or.inl h1
  · exact Or.inr (List.mem_filter.mp h2).1

/-! ## `service.py` — `NetworkAnalyzer` feature scoring -/

/-- One row of the feature frame built by `NetworkAnalyzer.preprocess_data`:
the ordinal `EventType` code, the two label-encoded categorical codes, the
three z-scaled numeric columns, and the one-hot `service_i` columns. -/
structure FeatureRow where
  eventType : ℚ
  category : ℚ
  subcategory : ℚ
  duration : ℚ
  orig_pkts : ℚ
  orig_bytes : ℚ
  services : List ℚ

/-- The fixed linear combination of `NetworkAnalyzer.calculate_anomaly_score`
(coefficients −0.015, 0.012, 0.008, 0.007, 0.005, 0.005 and 0.003 for the
summed one-hot service columns). -/
def rawScore (f : FeatureRow) : ℚ :=
  f.eventType * (-15 / 1000) + f.category * (12 / 1000) + f.subcategory * (8 / 1000) +
    f.duration * (7 / 1000) + f.orig_pkts * (5 / 1000) + f.orig_bytes * (5 / 1000) +
    f.services.sum * (3 / 1000)

/-- The `1e-10` constant in the normalization denominator. -/
def epsilonNorm : ℚ := 1 / 10000000000

/-- `pandas.Series.min` over a batch (the empty case never arises: the caller
guards `if connections:`). -/
def batchMin : List ℚ → ℚ
  | [] => 0
  | x :: xs => xs.foldl min x

/-- `pandas.Series.max` over a batch. -/
def batchMax : List ℚ → ℚ
  | [] => 0
  | x :: xs => xs.foldl max x

/-- `calculate_anomaly_score`: raw linear scores, then the batch rescaling
`(score - score.min()) / (score.max() - score.min() + 1e-10)`. -/
def calculate_anomaly_score (fs : List FeatureRow) : List ℚ :=
  let raw := fs.map rawScore
  raw.map (fun s => (s - batchMin raw) / (batchMax raw - batchMin raw + epsilonNorm))

/-- The labelling lambda of `process_network_data`:
`'Malicious' if x >= 0.8 else 'Benign'`. -/
def labelOf (x : ℚ) : String :=
  if 8 / 10 ≤ x then "Malicious" else "Benign"

/-- The `summary` object of the broadcast payload `vis_data`. -/
structure SummaryStats where
  avg_score : ℚ
  max_score : ℚ
  malicious_count : Nat
  benign_count : Nat
  total_connections : Nat

/-- Builds `vis_data['summary']` from the batch's normalized scores:
mean, max, the two label row-counts, and `len(scores)`. -/
def buildSummary (scores : List ℚ) : SummaryStats where
  avg_score := scores.sum / (scores.length : ℚ)
  max_score := batchMax scores
  malicious_count := ((scores.map labelOf).filter (fun l => decide (l = "Malicious"))).length
  benign_count := ((scores.map labelOf).filter (fun l => decide (l = "Benign"))).length
  total_connections := scores.length

/-- Comparator for `results.nlargest(10, 'anomaly_score')` on rows tagged with
their batch position: higher score first, ties kept in batch order
(pandas `keep='first'`). -/
def rankLe (a b : Nat × ℚ) : Bool :=
  decide (b.2 < a.2 ∨ (a.2 = b.2 ∧ a.1 ≤ b.1))

/-- `results.nlargest(10, 'anomaly_score')`: the rows (batch position, score)
ordered by descending score with first-occurrence tie-break, truncated to 10. -/
def top_anomalies (scores : List ℚ) : List (Nat × ℚ) :=
  (scores.enum.mergeSort rankLe).take 10

/-! ## `service.py` — `WebSocketServer` subscriber hub -/

/-- `register`: `set.add` on the connected-clients set (clients are modelled
by opaque numeric ids). -/
def register (clients : List Nat) (ws : Nat) : List Nat :=
  if ws ∈ clients then clients else clients ++ [ws]

/-- `unregister`: `self.connected_clients.remove(websocket)`.
Python `set.remove` raises `KeyError` when the element is absent. -/
def unregister (clients : List Nat) (ws : Nat) : Except String (List Nat) :=
  if ws ∈ clients then Except.ok (clients.filter (fun c => decide (c ≠ ws)))
  else Except.error "KeyError"

/-- `asyncio.gather(..., return_exceptions=True)`: every task runs; each
outcome (value or exception) is collected into the result list and no
exception propagates out of the gather. -/
def gatherCollect (tasks : List (Except String Unit)) : Except String (List (Except String Unit)) :=
  Except.ok tasks

/-- `broadcast`: `if self.connected_clients: await asyncio.gather(*[client.send(message) ...], return_exceptions=True)`.
`send` gives each subscriber's own delivery outcome. -/
def broadcast (send : Nat → Except String Unit) (clients : List Nat) :
    Except String (List (Except String Unit)) :=
  if clients.isEmpty then Except.ok [] else gatherCollect (clients.map send)

/-! ## `networkws.py` — address classification -/

/-- An IP address as the tracker receives it from `psutil`: a well-formed
dotted-quad IPv4 string, or a string `ipaddress.ip_address` cannot parse
(the `ValueError` branch). -/
inductive IPAddr where
  | v4 (a b c d : Nat)
  | invalid (s : String)
deriving DecidableEq

/-- The textual form of the address (`str(ip_obj)` for a parsed address;
IPv4 octet strings are canonical dotted quads). -/
def IPAddr.str : IPAddr → String
  | .v4 a b c d =>
      toString a ++ "." ++ toString b ++ "." ++ toString c ++ "." ++ toString d
  | .invalid s => s

/-- `IPv4Address.is_private` as defined by the CPython `ipaddress` module:
membership in the IANA private-use networks. -/
def ipv4_is_private (a b c d : Nat) : Bool :=
  decide (a = 0) || decide (a = 10) || decide (a = 127) ||
    decide (a = 169 ∧ b = 254) || decide (a = 172 ∧ 16 ≤ b ∧ b ≤ 31) ||
    decide (a = 192 ∧ b = 0 ∧ c = 0 ∧ d ≤ 7) ||
    decide (a = 192 ∧ b = 0 ∧ c = 0 ∧ (d = 170 ∨ d = 171)) ||
    decide (a = 192 ∧ b = 0 ∧ c = 2) || decide (a = 192 ∧ b = 168) ||
    decide (a = 198 ∧ (b = 18 ∨ b = 19)) || decide (a = 198 ∧ b = 51 ∧ c = 100) ||
    decide (a = 203 ∧ b = 0 ∧ c = 113) || decide (240 ≤ a)

/-- `IPv4Address.is_loopback`: the `127.0.0.0/8` block. -/
def ipv4_is_loopback (a : Nat) : Bool :=
  decide (a = 127)

/-- Python `s.startswith(p)` over the characters of the two strings. -/
def strStartsWith (s p : String) : Bool :=
  p.toList.isPrefixOf s.toList

/-- `ConnectionTracker.is_local_address`: parse the address, then
`is_private or is_loopback or str(ip)=="0.0.0.0" or str(ip).startswith("169.254")`;
a parse failure (`ValueError`) yields `False`. -/
def is_local_address (ip : IPAddr) : Bool :=
  match ip with
  | .invalid _ => false
  | .v4 a b c d =>
      ipv4_is_private a b c d || ipv4_is_loopback a ||
        (IPAddr.str (.v4 a b c d) == "0.0.0.0") ||
        strStartsWith (IPAddr.str (.v4 a b c d)) "169.254"

/-! ## `networkws.py` — `ConnectionTracker` -/

/-- One endpoint of a sampled connection (`conn.laddr` / `conn.raddr`). -/
structure Endpoint where
  ip : IPAddr
  port : Nat
deriving DecidableEq

/-- Outcome of `psutil.Process(conn.pid).name()`: a name, or one of the
caught failures (`NoSuchProcess`, `AccessDenied`). -/
inductive ProcLookup where
  | ok (name : String)
  | failed
deriving DecidableEq

/-- One raw tuple from `psutil.net_connections(kind='inet')`.
`stream` is `conn.type == socket.SOCK_STREAM`; `status` is `conn.status`
as a character list (`conn.status[0]` on an empty status raises
`IndexError`, caught by the per-connection handler). -/
structure RawConn where
  laddr : Endpoint
  raddr : Option Endpoint
  status : List Char
  stream : Bool
  proc : ProcLookup
deriving DecidableEq

/-- The identity key built at line 39:
`f"{laddr.ip}:{laddr.port}-{raddr.ip if raddr else 'None'}:{raddr.port if raddr else 'None'}"`. -/
def connId (c : RawConn) : String :=
  c.laddr.ip.str ++ ":" ++ toString c.laddr.port ++ "-" ++
    (match c.raddr with
     | some r => r.ip.str ++ ":" ++ toString r.port
     | none => "None:None")

/-- Python banker's rounding (`round`) to an integer, over exact rationals. -/
def bankersRound (x : ℚ) : ℤ :=
  if x - ⌊x⌋ < 1 / 2 then ⌊x⌋
  else if 1 / 2 < x - ⌊x⌋ then ⌊x⌋ + 1
  else if ⌊x⌋ % 2 = 0 then ⌊x⌋ else ⌊x⌋ + 1

/-- `round(duration, 3)`. -/
def pyRound3 (x : ℚ) : ℚ :=
  (bankersRound (x * 1000) : ℚ) / 1000

/-- The `connection_data` dict (the nondeterministic `ts`/`uid` fields and the
constant `tunnel_parents` list are omitted; no claim mentions them). -/
structure ConnRecord where
  orig_h : String
  orig_p : Nat
  resp_h : String
  resp_p : Nat
  proto : String
  service : String
  duration : ℚ
  orig_bytes : Nat
  resp_bytes : Nat
  conn_state : List Char
  local_orig : Bool
  local_resp : Bool
  missed_bytes : Nat
  history : List Char
  orig_pkts : Nat
  orig_ip_bytes : Nat
  resp_pkts : Nat
  resp_ip_bytes : Nat
  label : String
  detailed_label : String
deriving DecidableEq

/-- The tracker's two cross-cycle dicts: `self.connections` and
`self.start_times`. -/
structure TrackerState where
  connections : List (String × ConnRecord)
  start_times : List (String × ℚ)
deriving DecidableEq

/-- `ConnectionTracker.__init__`. -/
def initialState : TrackerState :=
  { connections := [], start_times := [] }

/-- `if b then 1 else 0`: how Python compares a `bool` against an `int`. -/
def pyBoolToInt (b : Bool) : Nat :=
  if b then 1 else 0

/-- Line 89, `if(self.is_local_address(conn.laddr.ip)==False & conn.laddr.port!=3389):`.
In Python `&` binds tighter than `==` and `!=`, and `a == x != c` is a chained
comparison, so the line tests `(is_local == (False & port)) and ((False & port) != 3389)`
with `False & port` the bitwise-and `0 & port = 0`. -/
def retentionTest (isLoc : Bool) (port : Nat) : Bool :=
  (pyBoolToInt isLoc == Nat.land 0 port) && (Nat.land 0 port != 3389)

/-- The body of the `for conn in psutil.net_connections(...)` loop for one raw
tuple, threading the mutable pieces it touches: the tracker state, the
`current_connections` id set (as a list), and the `connections_data` output.
An empty `conn.status` raises `IndexError` at `conn.status[0]`; the
`except` clause then skips the record after the id and start-time updates
already happened. -/
def processConn (now : ℚ) (acc : TrackerState × List String × List ConnRecord)
    (c : RawConn) : TrackerState × List String × List ConnRecord :=
  let cid := connId c
  let cur := acc.2.1 ++ [cid]
  let st := acc.1
  let st1 : TrackerState :=
    match lookupA st.start_times cid with
    | some _ => st
    | none => { st with start_times := setKey st.start_times cid now }
  match c.status with
  | [] => (st1, cur, acc.2.2)
  | s0 :: _ =>
    let pname := match c.proc with | .ok n => n | .failed => "unknown"
    let dur := now - (lookupA st1.start_times cid).getD now
    let hist : List Char :=
      match lookupA st1.connections cid with
      | some r => r.history ++ [s0]
      | none => [s0]
    let rcd : ConnRecord :=
      { orig_h := c.laddr.ip.str
        orig_p := c.laddr.port
        resp_h := match c.raddr with | some r => r.ip.str | none => "0.0.0.0"
        resp_p := match c.raddr with | some r => r.port | none => 0
        proto := if c.stream then "tcp" else "udp"
        service := pname
        duration := pyRound3 dur
        orig_bytes := 0
        resp_bytes := 0
        conn_state := c.status
        local_orig := is_local_address c.laddr.ip
        local_resp := is_local_address (match c.raddr with | some r => r.ip | none => .v4 0 0 0 0)
        missed_bytes := 0
        history := hist.take 20
        orig_pkts := 0
        orig_ip_bytes := 0
        resp_pkts := 0
        resp_ip_bytes := 0
        label := "Normal"
        detailed_label := "Process: " ++ pname ++ ", State: " ++ String.mk c.status }
    if retentionTest (is_local_address c.laddr.ip) c.laddr.port then
      ({ st1 with connections := setKey st1.connections cid rcd }, cur, acc.2.2 ++ [rcd])
    else
      (st1, cur, acc.2.2)

/-- The cleanup loop (lines 98-102): every key of `start_times` absent from
`current_connections` is deleted from `start_times`, and from `connections`
when present there. -/
def cleanup (st : TrackerState) (cur : List String) : TrackerState :=
  let stale := (st.start_times.map Prod.fst).filter (fun k => decide (k ∉ cur))
  { start_times := st.start_times.filter (fun p => decide (p.1 ∈ cur)),
    connections := st.connections.filter (fun p => decide (p.1 ∉ stale)) }

/-- One full call of `get_detailed_connections`, with the raw `psutil` sample
and `time.time()` supplied as inputs: processes every raw tuple in order, then
runs the cleanup; returns `connections_data` and the updated tracker. -/
def get_detailed_connections (st : TrackerState) (now : ℚ) (raws : List RawConn) :
    List ConnRecord × TrackerState :=
  let r := raws.foldl (processConn now) (st, [], [])
  (r.2.2, cleanup r.1 r.2.1)

/-- The collector session loop of `handler`: one tracker, one
`get_detailed_connections` call per cycle; returns the final state and the
per-cycle emitted record lists. -/
def runCycles (st : TrackerState) (cycles : List (ℚ × List RawConn)) :
    TrackerState × List (List ConnRecord) :=
  match cycles with
  | [] => (st, [])
  | (t, raws) :: rest =>
    let out := get_detailed_connections st t raws
    let r := runCycles out.2 rest
    (r.1, out.1 :: r.2)

/-! ## Concrete sample inputs used by the closed theorems -/

/-- A loopback-origin connection (`127.0.0.1:5000`): its local address is
classified local, so the retention filter must reject it. -/
def loopbackConn : RawConn :=
  { laddr := ⟨.v4 127 0 0 1, 5000⟩, raddr := none,
    status := "ESTABLISHED".toList, stream := true, proc := .ok "chrome" }

/-- A public-origin connection on the remote-desktop port
(`93.184.216.34:3389`). -/
def publicRdpConn : RawConn :=
  { laddr := ⟨.v4 93 184 216 34, 3389⟩, raddr := some ⟨.v4 8 8 8 8, 443⟩,
    status := "ESTABLISHED".toList, stream := true, proc := .ok "svchost" }

/-- A stored record for a previously tracked UDP connection. -/
def sampleRecord : ConnRecord :=
  { orig_h := "8.8.8.8", orig_p := 53, resp_h := "0.0.0.0", resp_p := 0, proto := "udp",
    service := "dns", duration := 0, orig_bytes := 0, resp_bytes := 0,
    conn_state := "NONE".toList, local_orig := false, local_resp := true, missed_bytes := 0,
    history := ['N'], orig_pkts := 0, orig_ip_bytes := 0, resp_pkts := 0, resp_ip_bytes := 0,
    label := "Normal", detailed_label := "Process: dns, State: NONE" }

/-- A tracker state with one tracked identity `"x"`. -/
def trackedState : TrackerState :=
  { connections := [("x", sampleRecord)], start_times := [("x", 0)] }

/-- An all-zero feature row (raw score `0`). -/
def featRow0 : FeatureRow :=
  { eventType := 0, category := 0, subcategory := 0, duration := 0,
    orig_pkts := 0, orig_bytes := 0, services := [] }

/-- A feature row with unit duration (raw score `0.007`). -/
def featRowDur : FeatureRow :=
  { eventType := 0, category := 0, subcategory := 0, duration := 1,
    orig_pkts := 0, orig_bytes := 0, services := [] }

/-! ## Supporting lemmas about batch minima and maxima -/

theorem foldl_min_le_init (a : ℚ) (l : List ℚ) : l.foldl min a ≤ a := by
  induction l generalizing a with
  | nil => simp
  | cons x xs ih => exact le_trans (ih (min a x)) (min_le_left a x)

theorem foldl_min_le_mem {x : ℚ} {l : List ℚ} (hx : x ∈ l) (a : ℚ) : l.foldl min a ≤ x := by
  induction l generalizing a with
  | nil => cases hx
  | cons y ys ih =>
    rcases List.mem_cons.mp hx with rfl | h
    · exact le_trans (foldl_min_le_init (min a x) ys) (min_le_right a x)
    · exact ih h (min a y)

theorem init_le_foldl_max (a : ℚ) (l : List ℚ) : a ≤ l.foldl max a := by
  induction l generalizing a with
  | nil => simp
  | cons x xs ih => exact le_trans (le_max_left a x) (ih (max a x))

theorem mem_le_foldl_max {x : ℚ} {l : List ℚ} (hx : x ∈ l) (a : ℚ) : x ≤ l.foldl max a := by
  induction l generalizing a with
  | nil => cases hx
  | cons y ys ih =>
    rcases List.mem_cons.mp hx with rfl | h
    · exact le_trans (le_max_right a x) (init_le_foldl_max (max a x) ys)
    · exact ih h (max a y)

/-- `score.min()` bounds every batch element from below. -/
theorem batchMin_le {l : List ℚ} {x : ℚ} (hx : x ∈ l) : batchMin l ≤ x := by
  cases l with
  | nil => cases hx
  | cons y ys =>
    rcases List.mem_cons.mp hx with rfl | h
    · exact foldl_min_le_init x ys
    · exact foldl_min_le_mem h y

/-- `score.max()` bounds every batch element from above. -/
theorem le_batchMax {l : List ℚ} {x : ℚ} (hx : x ∈ l) : x ≤ batchMax l := by
  cases l with
  | nil => cases hx
  | cons y ys =>
    rcases List.mem_cons.mp hx with rfl | h
    · exact init_le_foldl_max x ys
    · exact mem_le_foldl_max h y

theorem foldl_min_mem (a : ℚ) (l : List ℚ) : l.foldl min a ∈ a :: l := by
  induction l generalizing a with
  | nil => simp
  | cons x xs ih =>
    simp only [List.foldl_cons]
    rcases List.mem_cons.mp (ih (min a x)) with h1 | h1
    · rcases min_choice a x with hm | hm <;> rw [h1, hm] <;> simp
    · simp [h1]

/-- The batch minimum of a non-empty batch is one of its elements. -/
theorem batchMin_mem {l : List ℚ} (hne : l ≠ []) : batchMin l ∈ l := by
  cases l with
  | nil => exact absurd rfl hne
  | cons y ys => exact foldl_min_mem y ys

/-! ## Supporting lemmas about the ranking comparator -/

/-- The descending-score, batch-order-tie-break comparator is transitive. -/
theorem rankLe_trans : ∀ a b c : Nat × ℚ, rankLe a b = true → rankLe b c = true →
    rankLe a c = true := by
  intro a b c h1 h2
  simp only [rankLe, decide_eq_true_eq] at h1 h2 ⊢
  rcases h1 with h1 | ⟨he1, hi1⟩ <;> rcases h2 with h2 | ⟨he2, hi2⟩
  · exact Or.inl (lt_trans h2 h1)
  · exact Or.inl (by rw [← he2]; exact h1)
  · exact Or.inl (by rw [he1]; exact h2)
  · exact Or.inr ⟨he1.trans he2, le_trans hi1 hi2⟩

/-- The ranking comparator is total. -/
theorem rankLe_total : ∀ a b : Nat × ℚ, (rankLe a b || rankLe b a) = true := by
  intro a b
  simp only [rankLe, Bool.or_eq_true, decide_eq_true_eq]
  rcases lt_trichotomy a.2 b.2 with h | h | h
  · exact Or.inr (Or.inl h)
  · rcases Nat.le_total a.1 b.1 with hi | hi
    · exact Or.inl (Or.inr ⟨h, hi⟩)
    · exact Or.inr (Or.inr ⟨h.symm, hi⟩)
  · exact Or.inl (Or.inl h)

/-! ## Supporting lemmas about the retention filter -/

/-- What line 89 actually computes: `False & port` is the integer `0`, the
chain `is_local == 0 != 3389` reduces to `is_local == 0 and True`, so the
test is just the negation of the locality flag — the port never matters. -/
theorem retentionTest_eq_not_local (b : Bool) (port : Nat) :
    retentionTest b port = !b := by
  have h0 : Nat.land 0 port = 0 := Nat.zero_and port
  cases b <;> simp [retentionTest, pyBoolToInt, h0]

/-- Every score receives one of the two labels. -/
theorem labelOf_cases (x : ℚ) : labelOf x = "Malicious" ∨ labelOf x = "Benign" := by
  unfold labelOf
  split <;> simp

/-- The two label row-counts partition the label column. -/
theorem count_two_labels (l : List ℚ) :
    ((l.map labelOf).filter (fun s => decide (s = "Malicious"))).length +
      ((l.map labelOf).filter (fun s => decide (s = "Benign"))).length = l.length := by
  induction l with
  | nil => simp
  | cons x tl ih =>
    rcases labelOf_cases x with h | h <;>
      simp [List.filter_cons, h, ih] <;> omega

/-! ## Supporting lemmas about the dictionaries -/

theorem lookupA_eq_none {α : Type} (m : List (String × α)) (k : String) :
    lookupA m k = none ↔ k ∉ m.map Prod.fst := by
  induction m with
  | nil => simp [lookupA]
  | cons p rest ih =>
    by_cases h : p.1 = k
    · simp [lookupA, h]
    · simp [lookupA, h, Ne.symm h, ih]

theorem lookupA_isSome_iff {α : Type} (m : List (String × α)) (k : String) :
    (lookupA m k).isSome = true ↔ k ∈ m.map Prod.fst := by
  rcases hl : lookupA m k with _ | v
  · simp [(lookupA_eq_none m k).mp hl]
  · have hne : ¬ lookupA m k = none := by rw [hl]; simp
    simpa using (lookupA_eq_none m k).not.mp hne

theorem setKey_isSome_mono {α : Type} (m : List (String × α)) (k : String) (v : α)
    (k' : String) (h : (lookupA m k').isSome = true) :
    (lookupA (setKey m k v) k').isSome = true := by
  by_cases he : k' = k
  · subst he; rw [lookupA_setKey_self]; rfl
  · rw [lookupA_setKey_ne _ _ _ _ he]; exact h

/-! ## Supporting lemmas about the tracker cycle -/

/-- Every key of `self.connections` is also a key of `self.start_times`:
the tracker establishes a start time before it ever stores a record. -/
def KeysSub (st : TrackerState) : Prop :=
  ∀ k : String, (lookupA st.connections k).isSome = true →
    (lookupA st.start_times k).isSome = true

/-- Each loop iteration adds exactly its identity key to
`current_connections`, on every control path. -/
theorem processConn_cur (now : ℚ) (st : TrackerState) (cur : List String)
    (out : List ConnRecord) (c : RawConn) :
    (processConn now (st, cur, out) c).2.1 = cur ++ [connId c] := by
  rcases hlk : lookupA st.start_times (connId c) with _ | t <;>
    cases hst : c.status <;>
    simp [processConn, hlk, hst] <;>
    split <;> simp

/-- After the loop, `current_connections` is exactly the identity keys of the
raw sample, in order. -/
theorem foldl_cur (now : ℚ) (raws : List RawConn) : ∀ (st : TrackerState)
    (cur : List String) (out : List ConnRecord),
    (raws.foldl (processConn now) (st, cur, out)).2.1 = cur ++ raws.map connId := by
  induction raws with
  | nil => intro st cur out; simp
  | cons c cs ih =>
    intro st cur out
    simp only [List.foldl_cons, List.map_cons]
    rcases hpc : processConn now (st, cur, out) c with ⟨st1, cur1, out1⟩
    have h1 : cur1 = cur ++ [connId c] := by
      have h := processConn_cur now st cur out c
      rw [hpc] at h; exact h
    rw [ih st1 cur1 out1, h1]
    simp

/-- A loop iteration never removes a `start_times` binding. -/
theorem processConn_start_mono (now : ℚ) (st : TrackerState) (cur : List String)
    (out : List ConnRecord) (c : RawConn) (k : String)
    (h : (lookupA st.start_times k).isSome = true) :
    (lookupA (processConn now (st, cur, out) c).1.start_times k).isSome = true := by
  rcases hlk : lookupA st.start_times (connId c) with _ | t <;>
    cases hst : c.status <;>
    by_cases hret : retentionTest (is_local_address c.laddr.ip) c.laddr.port <;>
    simp only [processConn, hlk, hst, hret, ite_true, ite_false] <;>
    first
      | exact h
      | exact setKey_isSome_mono _ _ _ _ h

/-- A loop iteration preserves the keys inclusion: a record is stored only
after the identity's start time is in place. -/
theorem processConn_keysSub (now : ℚ) (st : TrackerState) (cur : List String)
    (out : List ConnRecord) (c : RawConn) (h : KeysSub st) :
    KeysSub (processConn now (st, cur, out) c).1 := by
  intro k hk
  by_cases hret : retentionTest (is_local_address c.laddr.ip) c.laddr.port
  all_goals rcases hlk : lookupA st.start_times (connId c) with _ | t
  all_goals cases hst : c.status
  all_goals simp only [processConn, hlk, hst, hret, ite_true, ite_false] at hk ⊢
  all_goals try exact h k hk
  all_goals try exact setKey_isSome_mono _ _ _ _ (h k hk)
  all_goals by_cases he : k = connId c
  · subst he; exact lookupA_setKey_self _ _ _ ▸ rfl
  · rw [lookupA_setKey_ne _ _ _ _ he] at hk
    exact setKey_isSome_mono _ _ _ _ (h k hk)
  · subst he; rw [hlk]; rfl
  · rw [lookupA_setKey_ne _ _ _ _ he] at hk
    exact h k hk

/-- The whole loop preserves the keys inclusion. -/
theorem foldl_keysSub (now : ℚ) (raws : List RawConn) : ∀ (st : TrackerState)
    (cur : List String) (out : List ConnRecord), KeysSub st →
    KeysSub (raws.foldl (processConn now) (st, cur, out)).1 := by
  induction raws with
  | nil => intro st cur out h; exact h
  | cons c cs ih =>
    intro st cur out h
    simp only [List.foldl_cons]
    rcases hpc : processConn now (st, cur, out) c with ⟨st1, cur1, out1⟩
    have h1 : KeysSub st1 := by
      have hpk := processConn_keysSub now st cur out c h
      rw [hpc] at hpk; exact hpk
    exact ih st1 cur1 out1 h1

/-- Cleanup keeps a `start_times` binding iff its key is in the current
sample's identity set. -/
theorem cleanup_start_lookup (st : TrackerState) (cur : List String) (k : String) :
    lookupA (cleanup st cur).start_times k =
      if decide (k ∈ cur) then lookupA st.start_times k else none :=
  lookupA_filter_key (fun s => decide (s ∈ cur)) st.start_times k

/-- Cleanup keeps a `connections` binding iff its key is not stale
(tracked in `start_times` but absent from the current sample). -/
theorem cleanup_conn_lookup (st : TrackerState) (cur : List String) (k : String) :
    lookupA (cleanup st cur).connections k =
      if decide (k ∉ (st.start_times.map Prod.fst).filter (fun s => decide (s ∉ cur)))
      then lookupA st.connections k else none :=
  lookupA_filter_key
    (fun s => decide (s ∉ (st.start_times.map Prod.fst).filter (fun x => decide (x ∉ cur))))
    st.connections k

/-- A full cycle deletes every tracked identity absent from the raw sample
from both tracker dicts. -/
theorem cycle_evicts (st : TrackerState) (now : ℚ) (raws : List RawConn) (id : String)
    (hsub : KeysSub st) (habs : id ∉ raws.map connId) :
    lookupA (get_detailed_connections st now raws).2.connections id = none ∧
    lookupA (get_detailed_connections st now raws).2.start_times id = none := by
  rcases hf : raws.foldl (processConn now) (st, [], []) with ⟨st1, cur1, out1⟩
  have hcur : cur1 = raws.map connId := by
    have h := foldl_cur now raws st [] []
    rw [hf] at h; simpa using h
  have hsub1 : KeysSub st1 := by
    have h := foldl_keysSub now raws st [] [] hsub
    rw [hf] at h; exact h
  have hidcur : id ∉ cur1 := by rw [hcur]; exact habs
  have hgd : get_detailed_connections st now raws = (out1, cleanup st1 cur1) := by
    simp only [get_detailed_connections, hf]
  rw [hgd]
  constructor
  · rw [cleanup_conn_lookup]
    by_cases hmem : id ∈ (st1.start_times.map Prod.fst).filter (fun s => decide (s ∉ cur1))
    · rw [if_neg (by simpa using hmem)]
    · rw [if_pos (by simpa using hmem)]
      rcases hl : lookupA st1.connections id with _ | v
      · rfl
      · exfalso
        have hks : (lookupA st1.start_times id).isSome = true :=
          hsub1 id (by rw [hl]; rfl)
        have hkeys : id ∈ st1.start_times.map Prod.fst :=
          (lookupA_isSome_iff _ _).mp hks
        exact hmem (List.mem_filter.mpr ⟨hkeys, by simpa using hidcur⟩)
  · rw [cleanup_start_lookup, if_neg (by simpa using hidcur)]

/-- An identity unknown to both tracker dicts is handled as brand new: its
start time becomes the current cycle time, and any record stored for it this
cycle has the single-character history of its current status. -/
theorem processConn_fresh (st : TrackerState) (cur : List String) (out : List ConnRecord)
    (now : ℚ) (c : RawConn) (s0 : Char) (rest : List Char)
    (hs : c.status = s0 :: rest)
    (h1 : lookupA st.start_times (connId c) = none)
    (h2 : lookupA st.connections (connId c) = none) :
    lookupA (processConn now (st, cur, out) c).1.start_times (connId c) = some now ∧
    (∀ r, lookupA (processConn now (st, cur, out) c).1.connections (connId c) = some r →
      r.history = [s0]) := by
  cases hret : retentionTest (is_local_address c.laddr.ip) c.laddr.port
  · constructor
    · simp [processConn, h1, h2, hs, hret, lookupA_setKey_self]
    · intro r hr
      simp [processConn, h1, h2, hs, hret] at hr
  · constructor
    · simp [processConn, h1, h2, hs, hret, lookupA_setKey_self]
    · intro r hr
      simp [processConn, h1, h2, hs, hret, lookupA_setKey_self] at hr
      rw [← hr]

/-- One loop iteration keeps every stored history at 20 characters or less
(the stored record's history is always truncated with `[:20]`). -/
theorem processConn_hist_state (now : ℚ) (st : TrackerState) (cur : List String)
    (out : List ConnRecord) (c : RawConn)
    (h1 : ∀ p ∈ st.connections, p.2.history.length ≤ 20) :
    ∀ p ∈ (processConn now (st, cur, out) c).1.connections, p.2.history.length ≤ 20 := by
  intro p hp
  rcases hlk : lookupA st.start_times (connId c) with _ | t <;>
    cases hst : c.status <;>
    cases hret : retentionTest (is_local_address c.laddr.ip) c.laddr.port <;>
    simp only [processConn, hlk, hst, hret, Bool.false_eq_true, ite_false, ite_true] at hp <;>
    first
      | exact h1 p hp
      | (rcases mem_setKey hp with heq | hm
         · rw [heq]
           simp [List.length_take]
         · exact h1 p hm)

/-- One loop iteration keeps every emitted history at 20 characters or less. -/
theorem processConn_hist_out (now : ℚ) (st : TrackerState) (cur : List String)
    (out : List ConnRecord) (c : RawConn)
    (h2 : ∀ r ∈ out, r.history.length ≤ 20) :
    ∀ r ∈ (processConn now (st, cur, out) c).2.2, r.history.length ≤ 20 := by
  intro r hr
  rcases hlk : lookupA st.start_times (connId c) with _ | t <;>
    cases hst : c.status <;>
    cases hret : retentionTest (is_local_address c.laddr.ip) c.laddr.port <;>
    simp only [processConn, hlk, hst, hret, Bool.false_eq_true, ite_false, ite_true] at hr <;>
    first
      | exact h2 r hr
      | (rcases List.mem_append.mp hr with hm | hm
         · exact h2 r hm
         · rw [List.mem_singleton.mp hm]
           simp [List.length_take])

/-- The history cap is preserved across the whole per-cycle loop. -/
theorem foldl_hist (now : ℚ) (raws : List RawConn) : ∀ (st : TrackerState)
    (cur : List String) (out : List ConnRecord),
    (∀ p ∈ st.connections, p.2.history.length ≤ 20) →
    (∀ r ∈ out, r.history.length ≤ 20) →
    (∀ p ∈ (raws.foldl (processConn now) (st, cur, out)).1.connections,
      p.2.history.length ≤ 20) ∧
    (∀ r ∈ (raws.foldl (processConn now) (st, cur, out)).2.2, r.history.length ≤ 20) := by
  induction raws with
  | nil => intro st cur out h1 h2; exact ⟨h1, h2⟩
  | cons c cs ih =>
    intro st cur out h1 h2
    simp only [List.foldl_cons]
    rcases hpc : processConn now (st, cur, out) c with ⟨st1, cur1, out1⟩
    have hs1 : ∀ p ∈ st1.connections, p.2.history.length ≤ 20 := by
      have h := processConn_hist_state now st cur out c h1
      rw [hpc] at h; exact h
    have ho1 : ∀ r ∈ out1, r.history.length ≤ 20 := by
      have h := processConn_hist_out now st cur out c h2
      rw [hpc] at h; exact h
    exact ih st1 cur1 out1 hs1 ho1

/-- The history cap is preserved by a full cycle, for the emitted records
and for the cleaned-up state. -/
theorem cycle_hist (st : TrackerState) (now : ℚ) (raws : List RawConn)
    (h1 : ∀ p ∈ st.connections, p.2.history.length ≤ 20) :
    (∀ r ∈ (get_detailed_connections st now raws).1, r.history.length ≤ 20) ∧
    (∀ p ∈ (get_detailed_connections st now raws).2.connections,
      p.2.history.length ≤ 20) := by
  rcases hf : raws.foldl (processConn now) (st, [], []) with ⟨st1, cur1, out1⟩
  have hall := foldl_hist now raws st [] [] h1 (by intro r hr; cases hr)
  rw [hf] at hall
  have hgd : get_detailed_connections st now raws = (out1, cleanup st1 cur1) := by
    simp only [get_detailed_connections, hf]
  rw [hgd]
  refine ⟨hall.2, ?_⟩
  intro p hp
  exact hall.1 p (List.mem_filter.mp hp).1

/-- The history cap holds across any session of consecutive cycles. -/
theorem runCycles_hist (cycles : List (ℚ × List RawConn)) : ∀ st : TrackerState,
    (∀ p ∈ st.connections, p.2.history.length ≤ 20) →
    (∀ out ∈ (runCycles st cycles).2, ∀ r ∈ out, r.history.length ≤ 20) ∧
    (∀ p ∈ (runCycles st cycles).1.connections, p.2.history.length ≤ 20) := by
  induction cycles with
  | nil =>
    intro st h
    constructor
    · intro out hout
      simp [runCycles] at hout
    · simpa [runCycles] using h
  | cons cy rest ih =>
    intro st h
    obtain ⟨t, raws⟩ := cy
    have hc := cycle_hist st t raws h
    have hr := ih (get_detailed_connections st t raws).2 hc.2
    constructor
    · intro out hout
      simp only [runCycles] at hout
      rcases List.mem_cons.mp hout with heq | hmem
      · rw [heq]; exact hc.1
      · exact hr.1 out hmem
    · intro p hp
      simp only [runCycles] at hp
      exact hr.2 p hp

/-! ## Claim theorems -/

/-- C1: the claim says a record is retained iff its local address is not
local AND its local port is not 3389, and in particular that a
public-address connection with local port 3389 is excluded. The code
disagrees: on the sample `93.184.216.34:3389` (not local, port 3389) the
cycle emits the record, because the `&`-precedence slip at line 89 makes
the port test vacuous. -/
theorem C1_public_rdp_record_retained :
    is_local_address publicRdpConn.laddr.ip = false ∧
    publicRdpConn.laddr.port = 3389 ∧
    (get_detailed_connections initialState 0 [publicRdpConn]).1.map (fun r => r.orig_p) =
      [3389] :=
  ⟨by decide, by decide, by decide⟩

/-- C2 counterexample: `unregister` on a subscriber absent from the
connected set does not return a new set silently — it raises `KeyError`
(`set.remove` semantics), refuting the stated no-op behaviour. -/
theorem C2_unregister_absent_raises :
    unregister [] 0 = Except.error "KeyError" :=
  rfl

/-- C2 amended: calling `unregister` with a subscriber not in the
connected-subscriber set raises `KeyError` (so no updated subscriber set is
produced and the stored set is left unchanged); it is not a silent no-op. -/
theorem C2_unregister_absent_keyerror (clients : List Nat) (ws : Nat) (h : ws ∉ clients) :
    unregister clients ws = Except.error "KeyError" := by
  simp [unregister, h]

/-- C2 witness: the amended theorem at the concrete set `[1, 2]` and
subscriber `5`. -/
theorem C2_unregister_absent_keyerror_witness :
    unregister [1, 2] 5 = Except.error "KeyError" :=
  C2_unregister_absent_keyerror [1, 2] 5 (by decide)

/-- C3 counterexample: the claim states that a rejected raw connection
leaves both tracker dicts unchanged for its identity. On the loopback sample
`127.0.0.1:5000` starting from the empty tracker, the record is rejected by
the retention filter, yet after the cycle `start_times` holds a binding for
the identity (line 44 records the start time before the filter runs, and the
cleanup keeps it because the identity is in the current sample). -/
theorem C3_rejection_modifies_start_times :
    retentionTest (is_local_address loopbackConn.laddr.ip) loopbackConn.laddr.port = false ∧
    lookupA initialState.start_times (connId loopbackConn) = none ∧
    lookupA (get_detailed_connections initialState 5 [loopbackConn]).2.start_times
      (connId loopbackConn) = some 5 :=
  ⟨by decide, by decide, by decide⟩

/-- C3 amended: a raw connection rejected by the retention filter leaves the
stored per-identity record map unchanged and contributes nothing to the
cycle's output, and it leaves the duration-start map unchanged when the
identity already has a recorded start; but for a first-seen identity the
rejected connection does record the current time as its duration-start. -/
theorem C3_rejected_record_state (st : TrackerState) (cur : List String)
    (out : List ConnRecord) (now : ℚ) (c : RawConn)
    (hrej : retentionTest (is_local_address c.laddr.ip) c.laddr.port = false) :
    (processConn now (st, cur, out) c).1.connections = st.connections ∧
    (processConn now (st, cur, out) c).2.2 = out ∧
    (lookupA st.start_times (connId c) = none →
      lookupA (processConn now (st, cur, out) c).1.start_times (connId c) = some now) ∧
    (∀ t, lookupA st.start_times (connId c) = some t →
      (processConn now (st, cur, out) c).1.start_times = st.start_times) := by
  rcases hlk : lookupA st.start_times (connId c) with _ | t <;>
    cases hst : c.status <;>
    simp [processConn, hlk, hst, hrej, lookupA_setKey_self]

/-- C3 witness: the amended theorem applied to the rejected loopback sample
over the empty tracker at time 5. -/
theorem C3_rejected_record_state_witness :
    (processConn 5 (initialState, [], []) loopbackConn).1.connections =
      initialState.connections ∧
    (processConn 5 (initialState, [], []) loopbackConn).2.2 = [] ∧
    lookupA (processConn 5 (initialState, [], []) loopbackConn).1.start_times
      (connId loopbackConn) = some 5 :=
  ⟨(C3_rejected_record_state initialState [] [] 5 loopbackConn (by decide)).1,
   (C3_rejected_record_state initialState [] [] 5 loopbackConn (by decide)).2.1,
   (C3_rejected_record_state initialState [] [] 5 loopbackConn (by decide)).2.2.1 (by decide)⟩

/-- C4: in every non-empty scored batch each normalized score lies in
`[0,1]`, and when all raw scores of the batch are equal every normalized
score is `0` (the `1e-10` term keeps the denominator positive, so no
division by zero arises). -/
theorem C4_anomaly_score_normalized (fs : List FeatureRow) (hne : fs ≠ []) :
    (∀ s ∈ calculate_anomaly_score fs, 0 ≤ s ∧ s ≤ 1) ∧
    ((∀ x ∈ fs.map rawScore, ∀ y ∈ fs.map rawScore, x = y) →
      ∀ s ∈ calculate_anomaly_score fs, s = 0) := by
  have hrne : fs.map rawScore ≠ [] := by
    simpa using hne
  have heps : (0 : ℚ) < epsilonNorm := by norm_num [epsilonNorm]
  have hmnmx : batchMin (fs.map rawScore) ≤ batchMax (fs.map rawScore) :=
    le_batchMax (batchMin_mem hrne)
  have hden : 0 < batchMax (fs.map rawScore) - batchMin (fs.map rawScore) + epsilonNorm := by
    linarith
  constructor
  · intro s hs
    simp only [calculate_anomaly_score] at hs
    obtain ⟨r, hr, rfl⟩ := List.mem_map.mp hs
    constructor
    · exact div_nonneg (by linarith [batchMin_le hr]) hden.le
    · rw [div_le_one hden]
      linarith [le_batchMax hr]
  · intro hall s hs
    simp only [calculate_anomaly_score] at hs
    obtain ⟨r, hr, rfl⟩ := List.mem_map.mp hs
    have h1 : r = batchMin (fs.map rawScore) := hall r hr _ (batchMin_mem hrne)
    rw [← h1, sub_self, zero_div]

/-- C4 witness: the theorem applied to a two-row batch with distinct raw
scores (first conjunct) and to a one-row batch, where all raw scores are
trivially equal (second conjunct). -/
theorem C4_anomaly_score_normalized_witness :
    (0 ≤ (calculate_anomaly_score [featRow0, featRowDur]).head! ∧
      (calculate_anomaly_score [featRow0, featRowDur]).head! ≤ 1) ∧
    (calculate_anomaly_score [featRow0]).head! = 0 :=
  ⟨(C4_anomaly_score_normalized [featRow0, featRowDur] (List.cons_ne_nil _ _)).1 _
      (List.head!_mem_self (by simp [calculate_anomaly_score])),
   (C4_anomaly_score_normalized [featRow0] (List.cons_ne_nil _ _)).2
      (by
        intro x hx y hy
        simp only [List.map_cons, List.map_nil] at hx hy
        rw [List.mem_singleton.mp hx, List.mem_singleton.mp hy]) _
      (List.head!_mem_self (by simp [calculate_anomaly_score]))⟩

/-- C5: starting from the initial tracker, after any sequence of cycles
every record emitted in any cycle and every record still stored in the
tracker has a history of at most 20 characters. -/
theorem C5_history_capped (cycles : List (ℚ × List RawConn)) :
    (∀ out ∈ (runCycles initialState cycles).2, ∀ r ∈ out, r.history.length ≤ 20) ∧
    (∀ p ∈ (runCycles initialState cycles).1.connections, p.2.history.length ≤ 20) :=
  runCycles_hist cycles initialState (by intro p hp; cases hp)

/-- C6: (eviction) a tracked identity absent from the current raw sample is
deleted from both the stored record map and the duration-start map by that
cycle's cleanup; (fresh restart) an identity unknown to both maps — as after
an eviction — is treated as new when it reappears: its duration-start becomes
the reappearance cycle's time and any record stored for it has the
single-character history of its current status, with no pre-eviction
characters. The `KeysSub` hypothesis (records only for identities with a
start time) holds for every state the tracker reaches from its initial
state. -/
theorem C6_eviction_fresh_restart (st : TrackerState) (now : ℚ) (raws : List RawConn)
    (id : String) (hsub : KeysSub st) (habs : id ∉ raws.map connId) :
    (lookupA (get_detailed_connections st now raws).2.connections id = none ∧
      lookupA (get_detailed_connections st now raws).2.start_times id = none) ∧
    (∀ (st2 : TrackerState) (cur2 : List String) (out2 : List ConnRecord) (t2 : ℚ)
        (c : RawConn) (s0 : Char) (rest : List Char),
      c.status = s0 :: rest →
      lookupA st2.start_times (connId c) = none →
      lookupA st2.connections (connId c) = none →
      lookupA (processConn t2 (st2, cur2, out2) c).1.start_times (connId c) = some t2 ∧
      ∀ r, lookupA (processConn t2 (st2, cur2, out2) c).1.connections (connId c) = some r →
        r.history = [s0]) :=
  ⟨cycle_evicts st now raws id hsub habs,
   fun st2 cur2 out2 t2 c s0 rest hs h1 h2 =>
     processConn_fresh st2 cur2 out2 t2 c s0 rest hs h1 h2⟩

/-- C6 witness: the theorem applied to a state tracking one identity `"x"`
and an empty raw sample: the cycle evicts `"x"` from both maps. -/
theorem C6_eviction_fresh_restart_witness :
    lookupA (get_detailed_connections trackedState 1 []).2.connections "x" = none ∧
    lookupA (get_detailed_connections trackedState 1 []).2.start_times "x" = none :=
  (C6_eviction_fresh_restart trackedState 1 [] "x"
    (by
      intro k hk
      by_cases h : ("x" : String) = k
      · simp [trackedState, lookupA, h]
      · simp [trackedState, lookupA, h] at hk)
    (by simp)).1

/-- C7: a scored record is labelled `"Malicious"` iff its normalized score
is at least `0.8`, and `"Benign"` iff it is below `0.8`; the boundary value
`0.8` is labelled `"Malicious"` and `0.79999` is labelled `"Benign"`. -/
theorem C7_label_threshold (x : ℚ) :
    (labelOf x = "Malicious" ↔ 8 / 10 ≤ x) ∧
    (labelOf x = "Benign" ↔ x < 8 / 10) ∧
    labelOf (8 / 10) = "Malicious" ∧
    labelOf (79999 / 100000) = "Benign" := by
  have hMB : ("Malicious" : String) ≠ "Benign" := by decide
  refine ⟨?_, ?_, ?_, ?_⟩
  · by_cases h : (8 : ℚ) / 10 ≤ x <;> simp [labelOf, h, hMB.symm]
  · by_cases h : (8 : ℚ) / 10 ≤ x
    · simp [labelOf, h, hMB, not_lt.mpr h]
    · simp [labelOf, h, hMB, not_le.mp h]
  · simp [labelOf]
  · have hx : ¬ ((8 : ℚ) / 10 ≤ 79999 / 100000) := by norm_num
    simp [labelOf, hx]

/-- C8: the broadcast `top_anomalies` list holds at most 10 records, is
ordered by strictly descending normalized score except on ties, and ties
keep the batch (first-seen) order: any record before another has either a
strictly larger score or an equal score and a strictly smaller batch
position. -/
theorem C8_top_anomalies_ranked (scores : List ℚ) :
    (top_anomalies scores).length ≤ 10 ∧
    List.Pairwise (fun a b => b.2 < a.2 ∨ (a.2 = b.2 ∧ a.1 < b.1)) (top_anomalies scores) := by
  constructor
  · exact List.length_take_le 10 _
  · have hsorted := List.sorted_mergeSort rankLe_trans rankLe_total scores.enum
    have hnodup : (scores.enum.mergeSort rankLe).Nodup := by
      have h1 : scores.enum.Nodup := by
        apply List.Nodup.of_map Prod.fst
        rw [List.enum_map_fst]
        exact List.nodup_range _
      exact ((List.mergeSort_perm scores.enum rankLe).nodup_iff).mpr h1
    have hne : List.Pairwise (fun a b => a ≠ b) (scores.enum.mergeSort rankLe) := hnodup
    have hpw := List.Pairwise.and hsorted hne
    refine List.Pairwise.sublist (List.take_sublist 10 _) (hpw.imp ?_)
    intro a b hab
    obtain ⟨hle, hab2⟩ := hab
    simp only [rankLe, decide_eq_true_eq] at hle
    rcases hle with h | ⟨he, hi⟩
    · exact Or.inl h
    · exact Or.inr ⟨he, lt_of_le_of_ne hi (fun h1 => hab2 (Prod.ext h1 he))⟩

/-- C9: `broadcast` hands every current subscriber's send to the gather with
`return_exceptions=True`, so it always returns the collected outcome list
(never propagates a send error), and the outcome at each position is exactly
that subscriber's own send result, unaffected by any other subscriber's
failure. -/
theorem C9_broadcast_isolated (send : Nat → Except String Unit) (clients : List Nat) :
    broadcast send clients = Except.ok (clients.map send) ∧
    ∀ i : Nat, (clients.map send)[i]? = (clients[i]?).map send := by
  constructor
  · by_cases h : clients.isEmpty
    · rw [List.isEmpty_iff.mp h]; simp [broadcast, gatherCollect]
    · simp [broadcast, h, gatherCollect]
  · intro i
    exact List.getElem?_map send clients i

/-- C10: in the broadcast summary, the `"Malicious"` row count plus the
`"Benign"` row count equals `total_connections`, because each score is
assigned exactly one of the two labels and `total_connections` is the
number of scores. -/
theorem C10_summary_counts (scores : List ℚ) :
    (buildSummary scores).malicious_count + (buildSummary scores).benign_count =
      (buildSummary scores).total_connections := by
  simpa [buildSummary] using count_two_labels scores

end Osint
